import Mathlib

/-!
Shallow embedding of the element builder `h` (src/h.ts) and the hash router
(src/router.ts) of the marketing-site template, together with proofs about
the behaviours its specification describes.

DOM nodes are modelled as a tree of elements and text nodes.  An element
records its tag, its attribute list (a `setAttribute` store: replace on the
same name, append otherwise), its registered event listeners (event name
paired with an opaque function identifier), its inline-style fields, and its
children.  JavaScript functions appearing as property values or event
handlers are opaque: only their identity (a `Nat`) is tracked, which is all
the dispatch logic of `h` inspects.
-/

namespace Spec2Proof

/-- Lowercasing of a single character, as `toLowerCase` acts on the ASCII
range (the only characters appearing in the event-prefix convention). -/
def charLower (c : Char) : Char :=
  if 'A' ≤ c ∧ c ≤ 'Z' then Char.ofNat (c.toNat + 32) else c

/-- Model of JavaScript `s.toLowerCase()`. -/
def jsToLower (s : String) : String := ⟨s.data.map charLower⟩

/-- Model of JavaScript `s.slice(n)` / `s.substring(n)` for a nonnegative
start index: drop the first `n` characters. -/
def jsDrop (s : String) (n : Nat) : String := ⟨s.data.drop n⟩

/-- Model of JavaScript `s.startsWith(pre)`. -/
def jsStartsWith (s pre : String) : Bool := pre.data.isPrefixOf s.data

/-- Model of a DOM node: a text node or an element with tag, attributes,
event listeners (event name, opaque handler id), inline style fields and
children, mirroring what `h` in src/h.ts constructs. -/
inductive Node where
  | text (s : String)
  | elem (tag : String) (attrs : List (String × String))
      (listeners : List (String × Nat)) (style : List (String × String))
      (children : List Node)

/-- Model of a JavaScript value appearing in the props bag of `h`:
`null`, `undefined`, booleans, (integer) numbers, strings, functions
(opaque, identified by a `Nat`) and plain objects (used as style maps,
modelled as their own enumerable string fields in insertion order). -/
inductive PropValue where
  | vnull
  | vundefined
  | vbool (b : Bool)
  | vnum (n : Int)
  | vstr (s : String)
  | vfun (id : Nat)
  | vobj (fields : List (String × String))
deriving DecidableEq

/-- JavaScript `typeof` on a modelled value (`typeof null` is "object"). -/
def typeofV : PropValue → String
  | .vnull => "object"
  | .vundefined => "undefined"
  | .vbool _ => "boolean"
  | .vnum _ => "number"
  | .vstr _ => "string"
  | .vfun _ => "function"
  | .vobj _ => "object"

/-- JavaScript `String(v)` coercion on a modelled value.  For a function the
platform yields its source text; the model uses the fixed token "function"
(no claim depends on the exact text, only on an attribute being set). -/
def stringOfV : PropValue → String
  | .vnull => "null"
  | .vundefined => "undefined"
  | .vbool b => if b then "true" else "false"
  | .vnum n => toString n
  | .vstr s => s
  | .vfun _ => "function"
  | .vobj _ => "[object Object]"

/-- JavaScript loose test `v != null`: false exactly on `null` and
`undefined`. -/
def looseNonNull : PropValue → Bool
  | .vnull => false
  | .vundefined => false
  | _ => true

/-- Identifier of a function value (0 on non-functions; only applied under a
`typeof v === 'function'` guard). -/
def funId : PropValue → Nat
  | .vfun id => id
  | _ => 0

/-- Semantics of `el.setAttribute(name, val)` on the attribute store
(attribute names are unique in a DOM named node map): replace the existing
entry of that name in place, or append a new one at the end. -/
def setAttr : List (String × String) → String → String → List (String × String)
  | [], name, val => [(name, val)]
  | p :: tl, name, val =>
    if p.1 = name then (name, val) :: tl else p :: setAttr tl name val

/-- Semantics of `Object.assign(el.style, v)`: when `v` is an object its
fields are applied one by one; `Object.assign` with a `null` source is a
no-op (and `typeof null === 'object'` lets `null` reach this branch). -/
def assignStyle (style : List (String × String)) : PropValue → List (String × String)
  | .vobj fields => fields.foldl (fun s f => setAttr s f.1 f.2) style
  | _ => style

/-- Mutable element state accumulated by the property loop of `h`:
attributes, listeners, style fields, plus the log of `ref` callbacks invoked
(each recorded by its opaque function id). -/
structure ElemState where
  attrs : List (String × String)
  listeners : List (String × Nat)
  style : List (String × String)
  refCalls : List Nat

/-- Empty element state of a freshly created element. -/
def initElemState : ElemState := ⟨[], [], [], []⟩

/-- One iteration of the `for (const key in props)` loop of `h`
(src/h.ts lines 17-37), translating its if/else-if dispatch verbatim:
ref callback, event-prefixed handler, `className`, `style` object, true
boolean (present-but-empty attribute), then the `value != null &&
typeof value !== 'function'` catch-all which stringifies the value. -/
def applyProp (st : ElemState) (key : String) (v : PropValue) : ElemState :=
  if key = "ref" ∧ typeofV v = "function" then
    { st with refCalls := st.refCalls ++ [funId v] }
  else if jsStartsWith key "on" ∧ typeofV v = "function" then
    { st with listeners := st.listeners ++ [(jsToLower (jsDrop key 2), funId v)] }
  else if key = "className" then
    { st with attrs := setAttr st.attrs "class" (stringOfV v) }
  else if key = "style" ∧ typeofV v = "object" then
    { st with style := assignStyle st.style v }
  else if typeofV v = "boolean" ∧ v = .vbool true then
    { st with attrs := setAttr st.attrs key "" }
  else if looseNonNull v ∧ typeofV v ≠ "function" then
    { st with attrs := setAttr st.attrs key (stringOfV v) }
  else st

/-- The whole `for (const key in props)` loop of `h`: fold `applyProp` over
the bag's entries in insertion order. -/
def foldProps (ps : List (String × PropValue)) (st : ElemState) : ElemState :=
  ps.foldl (fun s p => applyProp s p.1 p.2) st

/-- Atomic child argument of `h`: an element, a string, a number, `null` or
`undefined`. -/
inductive ChildAtom where
  | celem (n : Node)
  | cstr (s : String)
  | cnum (n : Int)
  | cnull
  | cundefined

/-- Child argument of `h`: an atom or a (one-level) array of atoms, as in
the `Child` type of src/h.ts. -/
inductive Child where
  | atom (a : ChildAtom)
  | carr (l : List ChildAtom)

/-- The `appendChild` helper of `h` (src/h.ts lines 40-46) on one atom:
a node is appended as itself, a non-nullish primitive becomes a text node of
its string form, `null`/`undefined` append nothing. -/
def appendAtom (a : ChildAtom) : List Node :=
  match a with
  | .celem n => [n]
  | .cstr s => [Node.text s]
  | .cnum n => [Node.text (toString n)]
  | .cnull => []
  | .cundefined => []

/-- The `children.forEach` loop of `h` (src/h.ts lines 48-54): an array
child has `appendChild` applied to each entry, any other child directly. -/
def buildChildren (cs : List Child) : List Node :=
  cs.foldl
    (fun acc c =>
      match c with
      | .atom a => acc ++ appendAtom a
      | .carr l => l.foldl (fun acc2 a => acc2 ++ appendAtom a) acc)
    []

/-- Argument passed to a component function by `h`: the spread
`{ ...props, children }` — the props bag's own fields (a `children` key, if
any, being overridden) together with the children list. -/
structure ComponentArg where
  props : List (String × PropValue)
  children : List Child

/-- The merged argument `{ ...props, children }` built by `h` for a
component tag (spread of `null` yields the empty bag). -/
def mergeChildrenArg (props : Option (List (String × PropValue)))
    (children : List Child) : ComponentArg :=
  ⟨(props.getD []).filter (fun p => p.1 ≠ "children"), children⟩

/-- Tag argument of `h`: a string naming a native element, or a component
function producing a node. -/
inductive Tag where
  | str (t : String)
  | comp (f : ComponentArg → Node)

/-- Result of a call to `h`: the constructed node, plus the log of `ref`
callbacks invoked during construction (by opaque function id). -/
structure HResult where
  node : Node
  refCalls : List Nat

/-- The element builder `h` of src/h.ts.  A function tag is called once
with the merged props-and-children argument and its result returned
directly; a string tag creates an element, runs the property dispatch loop
over the (possibly absent) props bag, and appends the processed children. -/
def h (tag : Tag) (props : Option (List (String × PropValue)))
    (children : List Child) : HResult :=
  match tag with
  | .comp f => ⟨f (mergeChildrenArg props children), []⟩
  | .str t =>
    let st := foldProps (props.getD []) initElemState
    ⟨Node.elem t st.attrs st.listeners st.style (buildChildren children),
      st.refCalls⟩

/-- Attribute list of a node (empty for a text node). -/
def Node.attrsOf : Node → List (String × String)
  | .text _ => []
  | .elem _ attrs _ _ _ => attrs

/-- Listener list of a node (empty for a text node). -/
def Node.listenersOf : Node → List (String × Nat)
  | .text _ => []
  | .elem _ _ listeners _ _ => listeners

/-- Children of a node (empty for a text node). -/
def Node.childrenOf : Node → List Node
  | .text _ => []
  | .elem _ _ _ _ children => children

/-- Lookup in an attribute store: value of the first (hence only) entry of
that name, or `none`. -/
def lookupAttr (attrs : List (String × String)) (name : String) : Option String :=
  (attrs.find? (fun p => p.1 = name)).map (fun p => p.2)

/-- Observation `el.getAttribute(name)`. -/
def getAttr (n : Node) (name : String) : Option String :=
  lookupAttr n.attrsOf name

/-!
Router model (src/router.ts).  The document is abstracted to the parts the
router reads and writes: the children of the mount container `#app-root`
(absent when the element is missing), the live query result for `.nav-link`
anchors, and the console error log.  Page factories are the external
collaborators `HomePage`, ..., `NotFoundPage`; the router is parametric in
them, mirroring the module-level `routes` table.
-/

/-- Navigation link as the router sees it: its `href` attribute (absent when
`getAttribute('href')` is `null`) and its class list in order. -/
structure NavLink where
  href : Option String
  classes : List String

/-- Document state touched by the router: children of the `#app-root` mount
container (`none` when that element is missing from the document), the
`.nav-link` elements, and the `console.error` log. -/
structure Doc where
  appRoot : Option (List Node)
  navLinks : List NavLink
  errors : List String

/-- Own-property names of `Object.prototype` in a JavaScript runtime.  A
plain object literal such as the `routes` table inherits these, so the
bracket lookup `routes[path]` finds them even though they are not route
entries. -/
def objectPrototypeKeys : List String :=
  ["constructor", "hasOwnProperty", "isPrototypeOf", "propertyIsEnumerable",
   "toLocaleString", "toString", "valueOf", "__proto__", "__defineGetter__",
   "__defineSetter__", "__lookupGetter__", "__lookupSetter__"]

/-- Value produced by the bracket lookup `routes[path]`: either a page
factory stored in the table, or an inherited `Object.prototype` member
(which is truthy but is not a page factory). -/
inductive RouteValue where
  | factory (f : Unit → Node)
  | protoMember (name : String)

/-- JavaScript property access `routes[path]` on the object-literal route
table: own properties first, then the inherited `Object.prototype`
members; `none` models `undefined`. -/
def jsIndex (routes : List (String × (Unit → Node))) (path : String) :
    Option RouteValue :=
  match routes.find? (fun r => r.1 = path) with
  | some r => some (.factory r.2)
  | none =>
    if path ∈ objectPrototypeKeys then some (.protoMember path) else none

/-- Path resolution `window.location.hash.slice(1) || '/'` of
src/router.ts line 27: strip the leading `#`, an empty remainder becoming
the root path. -/
def resolvePath (hash : String) : String :=
  if jsDrop hash 1 = "" then "/" else jsDrop hash 1

/-- Semantics of `classList.add(t)`: append the token unless present. -/
def classListAdd (cls : List String) (t : String) : List String :=
  if t ∈ cls then cls else cls ++ [t]

/-- Semantics of `classList.add(t1, t2, ...)`: add each token in order. -/
def classListAddAll (cls : List String) (ts : List String) : List String :=
  ts.foldl classListAdd cls

/-- Semantics of `classList.remove(t1, t2, ...)`: drop every occurrence of
each token. -/
def classListRemoveAll (cls : List String) (ts : List String) : List String :=
  ts.foldl (fun c t => c.filter (fun x => x ≠ t)) cls

/-- Classes added to a matching nav link (src/router.ts line 51). -/
def activeClasses : List String :=
  ["text-foreground", "border-b-2", "border-base-900"]

/-- Classes added to a non-matching nav link (src/router.ts line 55). -/
def hoverClasses : List String :=
  ["hover:border-b-2", "hover:border-base-600"]

/-- Target path of a nav link, from src/router.ts line 45:
`link.getAttribute('href')?.slice(1) || '/'`. -/
def linkTargetPath (link : NavLink) : String :=
  match link.href with
  | none => "/"
  | some s => if jsDrop s 1 = "" then "/" else jsDrop s 1

/-- Per-link body of `updateNavLinks` (src/router.ts lines 44-57): a link
matching the current path gains the active classes and loses the hover
classes; any other link loses the active classes and gains the hover
classes. -/
def updateNavLink (currentPath : String) (link : NavLink) : NavLink :=
  if linkTargetPath link = currentPath then
    { link with
      classes := classListRemoveAll (classListAddAll link.classes activeClasses)
        hoverClasses }
  else
    { link with
      classes := classListAddAll (classListRemoveAll link.classes activeClasses)
        hoverClasses }

/-- The `updateNavLinks` function of src/router.ts: re-style every
`.nav-link` element against the current path. -/
def updateNavLinks (currentPath : String) (doc : Doc) : Doc :=
  { doc with navLinks := doc.navLinks.map (updateNavLink currentPath) }

/-- Error message logged when the mount container is missing
(src/router.ts line 23). -/
def rootErrorMsg : String := "Application root element #app-root not found!"

/-- The `handleRouteChange` handler of src/router.ts, parametric in the
route table and the `NotFoundPage` fallback.  Returns the new document
state together with the uncaught exception, if any.  When `#app-root` is
missing the error is logged and the handler returns.  Otherwise the path is
resolved, `routes[path] || NotFoundPage` picks the page, the container is
cleared (`innerHTML = ''`), the page's node is appended and the nav links
are updated.  When `routes[path]` finds an inherited `Object.prototype`
member instead of a factory, that truthy member is selected over the
fallback; invoking it never yields a DOM node, so `appendChild` throws a
TypeError after the container was already cleared, and `updateNavLinks` is
not reached. -/
def handleRouteChange (routes : List (String × (Unit → Node)))
    (notFound : Unit → Node) (hash : String) (doc : Doc) :
    Doc × Option String :=
  match doc.appRoot with
  | none => ({ doc with errors := doc.errors ++ [rootErrorMsg] }, none)
  | some _ =>
    let path := resolvePath hash
    match (jsIndex routes path).getD (.factory notFound) with
    | .factory f =>
      (updateNavLinks path { doc with appRoot := some ([] ++ [f ()]) }, none)
    | .protoMember _ =>
      ({ doc with appRoot := some [] }, some "TypeError")

/-!
Specification-side definitions.  These follow the words of the spec, to be
compared with the definitions translated from the source.
-/

/-- Spec-side flattening of a children list by exactly one level. -/
def flattenOneLevel (cs : List Child) : List ChildAtom :=
  cs.foldr
    (fun c acc =>
      (match c with
        | .atom a => [a]
        | .carr l => l) ++ acc)
    []

/-- Spec-side reading of one child atom: an element stands for itself, a
string or number becomes a text node of its string form, and `null` or
`undefined` is dropped. -/
def specAtomNode : ChildAtom → Option Node
  | .celem n => some n
  | .cstr s => some (Node.text s)
  | .cnum n => some (Node.text (toString n))
  | .cnull => none
  | .cundefined => none

/-- Spec-side children sequence: the list flattened exactly one level, with
nullish entries dropped and primitives converted to text nodes, in the
original order. -/
def specChildren (cs : List Child) : List Node :=
  (flattenOneLevel cs).filterMap specAtomNode

/-!
Helper lemmas about the attribute store and the property dispatch loop.
-/

theorem lookupAttr_setAttr_self (attrs : List (String × String)) (k v : String) :
    lookupAttr (setAttr attrs k v) k = some v := by
  induction attrs with
  | nil => simp [setAttr, lookupAttr, List.find?]
  | cons p tl ih =>
    by_cases hp : p.1 = k
    · simp [setAttr, hp, lookupAttr, List.find?]
    · simpa [setAttr, hp, lookupAttr, List.find?] using ih

theorem lookupAttr_setAttr_other (attrs : List (String × String)) (name v k : String)
    (hne : name ≠ k) :
    lookupAttr (setAttr attrs name v) k = lookupAttr attrs k := by
  induction attrs with
  | nil => simp [setAttr, lookupAttr, List.find?, hne]
  | cons p tl ih =>
    by_cases hp : p.1 = name
    · have hpk : ¬ p.1 = k := by rw [hp]; exact hne
      simp [setAttr, hp, lookupAttr, List.find?, hpk, hne]
    · by_cases hk : p.1 = k
      · have hkn : ¬ k = name := by rw [← hk]; exact hp
        simp [setAttr, hp, hkn, lookupAttr, List.find?, hk]
      · simpa [setAttr, hp, lookupAttr, List.find?, hk] using ih

theorem applyProp_bool (st : ElemState) (k : String) (b : Bool)
    (hk : k ≠ "className") :
    applyProp st k (.vbool b) =
      { st with attrs := setAttr st.attrs k (if b then "" else "false") } := by
  unfold applyProp
  rw [if_neg (fun hc => absurd (show ("boolean" : String) = "function" from hc.2) (by decide)),
    if_neg (fun hc => absurd (show ("boolean" : String) = "function" from hc.2) (by decide)),
    if_neg hk,
    if_neg (fun hc => absurd (show ("boolean" : String) = "object" from hc.2) (by decide))]
  cases b with
  | true =>
    rw [if_pos ⟨rfl, rfl⟩]
    rfl
  | false =>
    rw [if_neg (fun hc => absurd hc.2 (by decide)), if_pos ⟨rfl, by decide⟩]
    rfl

theorem applyProp_fun_event (st : ElemState) (k : String) (fid : Nat)
    (hon : jsStartsWith k "on" = true) :
    applyProp st k (.vfun fid) =
      { st with listeners := st.listeners ++ [(jsToLower (jsDrop k 2), fid)] } := by
  have href : k ≠ "ref" := by
    rintro rfl
    exact absurd hon (by decide)
  unfold applyProp
  rw [if_neg (fun hc => href hc.1), if_pos ⟨hon, rfl⟩]
  rfl

theorem applyProp_fun_inert (st : ElemState) (k : String) (fid : Nat)
    (h1 : k ≠ "ref") (h2 : jsStartsWith k "on" = false) (h3 : k ≠ "className") :
    applyProp st k (.vfun fid) = st := by
  unfold applyProp
  rw [if_neg (fun hc => h1 hc.1),
    if_neg (fun hc => by rw [h2] at hc; exact Bool.noConfusion hc.1),
    if_neg h3,
    if_neg (fun hc => absurd (show ("function" : String) = "object" from hc.2) (by decide)),
    if_neg (fun hc => absurd (show ("function" : String) = "boolean" from hc.1) (by decide)),
    if_neg (fun hc => hc.2 rfl)]

theorem listeners_applyProp_mono (st : ElemState) (k : String) (v : PropValue)
    (a : String × Nat) (ha : a ∈ st.listeners) :
    a ∈ (applyProp st k v).listeners := by
  unfold applyProp
  split_ifs <;> first | exact ha | exact List.mem_append_left _ ha

theorem lookupAttr_applyProp_other (st : ElemState) (kp : String) (v : PropValue)
    (k : String) (h1 : kp ≠ k) (h2 : k ≠ "class") :
    lookupAttr (applyProp st kp v).attrs k = lookupAttr st.attrs k := by
  unfold applyProp
  split_ifs
  · rfl
  · rfl
  · exact lookupAttr_setAttr_other _ _ _ _ (Ne.symm h2)
  · rfl
  · exact lookupAttr_setAttr_other _ _ _ _ h1
  · exact lookupAttr_setAttr_other _ _ _ _ h1
  · rfl

theorem foldProps_append (ps₁ ps₂ : List (String × PropValue)) (st : ElemState) :
    foldProps (ps₁ ++ ps₂) st = foldProps ps₂ (foldProps ps₁ st) := by
  simp [foldProps, List.foldl_append]

theorem foldProps_cons (p : String × PropValue) (ps : List (String × PropValue))
    (st : ElemState) :
    foldProps (p :: ps) st = foldProps ps (applyProp st p.1 p.2) := rfl

theorem lookupAttr_foldProps_preserve (ps : List (String × PropValue))
    (st : ElemState) (k : String) (h2 : k ≠ "class")
    (hk : ∀ p ∈ ps, p.1 ≠ k) :
    lookupAttr (foldProps ps st).attrs k = lookupAttr st.attrs k := by
  induction ps generalizing st with
  | nil => rfl
  | cons p tl ih =>
    rw [foldProps_cons,
      ih _ (fun q hq => hk q (List.mem_cons_of_mem _ hq)),
      lookupAttr_applyProp_other _ _ _ _ (hk p (List.mem_cons_self _ _)) h2]

theorem listeners_foldProps_mono (ps : List (String × PropValue))
    (st : ElemState) (a : String × Nat) (ha : a ∈ st.listeners) :
    a ∈ (foldProps ps st).listeners := by
  induction ps generalizing st with
  | nil => exact ha
  | cons p tl ih =>
    rw [foldProps_cons]
    exact ih _ (listeners_applyProp_mono _ _ _ _ ha)

theorem keys_of_nodup_split {ps₁ ps₂ : List (String × PropValue)}
    {k : String} {v : PropValue}
    (hnd : ((ps₁ ++ (k, v) :: ps₂).map Prod.fst).Nodup) :
    (∀ p ∈ ps₁, p.1 ≠ k) ∧ (∀ p ∈ ps₂, p.1 ≠ k) := by
  rw [List.map_append, List.map_cons] at hnd
  obtain ⟨-, hnd2, hdisj⟩ := List.nodup_append.mp hnd
  refine ⟨fun p hp heq => ?_, fun p hp heq => ?_⟩
  · have hm1 : p.1 ∈ ps₁.map Prod.fst := List.mem_map_of_mem _ hp
    have hm2 : p.1 ∈ k :: ps₂.map Prod.fst := by
      rw [heq]; exact List.mem_cons_self _ _
    exact hdisj hm1 hm2
  · have hm : p.1 ∈ ps₂.map Prod.fst := List.mem_map_of_mem _ hp
    rw [heq] at hm
    exact (List.nodup_cons.mp hnd2).1 hm

theorem specChildren_nil : specChildren [] = [] := rfl

theorem specChildren_cons_atom (a : ChildAtom) (tl : List Child) :
    specChildren (Child.atom a :: tl) = appendAtom a ++ specChildren tl := by
  cases a <;>
    simp [specChildren, flattenOneLevel, List.filterMap_cons, appendAtom,
      specAtomNode]

theorem specChildren_cons_arr (l : List ChildAtom) (tl : List Child) :
    specChildren (Child.carr l :: tl)
      = l.filterMap specAtomNode ++ specChildren tl := by
  simp [specChildren, flattenOneLevel, List.filterMap_append]

theorem foldl_appendAtom (l : List ChildAtom) (acc : List Node) :
    l.foldl (fun acc2 a => acc2 ++ appendAtom a) acc
      = acc ++ l.filterMap specAtomNode := by
  induction l generalizing acc with
  | nil => simp
  | cons a tl ih =>
    rw [List.foldl_cons, ih, List.filterMap_cons]
    cases a <;> simp [appendAtom, specAtomNode]

theorem buildChildren_go (cs : List Child) (acc : List Node) :
    cs.foldl
        (fun acc c =>
          match c with
          | .atom a => acc ++ appendAtom a
          | .carr l => l.foldl (fun acc2 a => acc2 ++ appendAtom a) acc)
        acc
      = acc ++ specChildren cs := by
  induction cs generalizing acc with
  | nil => simp [specChildren_nil]
  | cons c tl ih =>
    rw [List.foldl_cons]
    cases c with
    | atom a =>
      rw [ih, specChildren_cons_atom, List.append_assoc]
    | carr l =>
      rw [ih]
      show l.foldl (fun acc2 a => acc2 ++ appendAtom a) acc ++ specChildren tl
        = acc ++ specChildren (Child.carr l :: tl)
      rw [foldl_appendAtom, specChildren_cons_arr, List.append_assoc]

theorem buildChildren_eq_specChildren (cs : List Child) :
    buildChildren cs = specChildren cs := by
  rw [buildChildren, buildChildren_go]
  rfl

/-!
Claim theorems for the element builder.
-/

/-- C4: for every call to `h` building an element, with any (possibly null)
props bag and any children list of elements, strings, numbers, nullish
values and one-level-nested arrays of these, the element's children equal
the children list flattened exactly one level with nullish entries dropped,
element entries kept as themselves and string or number entries rendered as
text nodes of their string form, in the original order. -/
theorem C4_children_order (t : String)
    (props : Option (List (String × PropValue))) (cs : List Child) :
    (h (Tag.str t) props cs).node.childrenOf = specChildren cs := by
  show buildChildren cs = specChildren cs
  exact buildChildren_eq_specChildren cs

/-- C5: a call to `h` whose tag is a function delegates fully: the function
is applied to the single argument obtained by merging the props bag with a
children field equal to the children list, its return value is returned
directly, and no ref invocation, property dispatch or child appending of
`h`'s own happens at this call site. -/
theorem C5_component_delegation (f : ComponentArg → Node)
    (props : Option (List (String × PropValue))) (cs : List Child) :
    h (Tag.comp f) props cs
      = ⟨f ⟨(props.getD []).filter (fun p => p.1 ≠ "children"), cs⟩, []⟩ := rfl

/-- C1 counterexample: the claim says a false boolean property sets no
attribute of that name, but `h('input', {disabled: false})` carries the
attribute disabled="false" — `false != null` is true in JavaScript, so a
false boolean reaches the stringifying catch-all branch. -/
theorem C1_counterexample :
    getAttr (h (Tag.str "input")
        (some [("disabled", PropValue.vbool false)]) []).node "disabled"
      = some "false" := by decide

/-- C1 (amended): for every string-tag call to `h` whose props bag has
pairwise-distinct keys and contains a boolean-valued property whose name is
neither className nor class: if the value is true the element carries that
name as a present-but-empty attribute, and if the value is false the
element carries that name as an attribute with value "false" (not, as
originally claimed, no attribute at all). -/
theorem C1_bool_attr (t : String) (ps : List (String × PropValue))
    (cs : List Child) (k : String) (b : Bool)
    (hmem : (k, PropValue.vbool b) ∈ ps)
    (hnd : (ps.map Prod.fst).Nodup)
    (h1 : k ≠ "className") (h2 : k ≠ "class") :
    getAttr (h (Tag.str t) (some ps) cs).node k
      = some (if b then "" else "false") := by
  obtain ⟨l₁, l₂, rfl⟩ := List.append_of_mem hmem
  obtain ⟨hk1, hk2⟩ := keys_of_nodup_split hnd
  show lookupAttr (foldProps (l₁ ++ (k, .vbool b) :: l₂) initElemState).attrs k = _
  rw [foldProps_append, foldProps_cons,
    lookupAttr_foldProps_preserve _ _ _ h2 hk2, applyProp_bool _ _ _ h1]
  exact lookupAttr_setAttr_self _ _ _

/-- C1 witness: the amended theorem evaluated at the concrete call
`h('input', {disabled: false})`. -/
theorem C1_witness :
    getAttr (h (Tag.str "input")
        (some [("disabled", PropValue.vbool false)]) []).node "disabled"
      = some (if false then "" else "false") :=
  C1_bool_attr "input" [("disabled", PropValue.vbool false)] [] "disabled" false
    (by decide) (by decide) (by decide) (by decide)

/-- C6: for every string-tag call to `h` whose props bag (with distinct
keys) contains a property whose name starts with the event prefix "on" and
whose value is a function, `h` registers that function as a listener under
the event name obtained by stripping the prefix and lowercasing the
remainder, and sets no attribute of that property's name. -/
theorem C6_event_listener (t : String) (ps : List (String × PropValue))
    (cs : List Child) (k : String) (fid : Nat)
    (hmem : (k, PropValue.vfun fid) ∈ ps)
    (hnd : (ps.map Prod.fst).Nodup)
    (hon : jsStartsWith k "on" = true) :
    (jsToLower (jsDrop k 2), fid)
        ∈ (h (Tag.str t) (some ps) cs).node.listenersOf ∧
      getAttr (h (Tag.str t) (some ps) cs).node k = none := by
  have hclass : k ≠ "class" := by
    rintro rfl
    exact absurd hon (by decide)
  obtain ⟨l₁, l₂, rfl⟩ := List.append_of_mem hmem
  obtain ⟨hk1, hk2⟩ := keys_of_nodup_split hnd
  constructor
  · show (jsToLower (jsDrop k 2), fid)
        ∈ (foldProps (l₁ ++ (k, .vfun fid) :: l₂) initElemState).listeners
    rw [foldProps_append, foldProps_cons, applyProp_fun_event _ _ _ hon]
    exact listeners_foldProps_mono _ _ _
      (List.mem_append_right _ (List.mem_singleton.mpr rfl))
  · show lookupAttr (foldProps (l₁ ++ (k, .vfun fid) :: l₂) initElemState).attrs k
        = none
    rw [foldProps_append, foldProps_cons,
      lookupAttr_foldProps_preserve _ _ _ hclass hk2,
      applyProp_fun_event _ _ _ hon]
    show lookupAttr (foldProps l₁ initElemState).attrs k = none
    rw [lookupAttr_foldProps_preserve _ _ _ hclass hk1]
    rfl

/-- C6 witness: the theorem evaluated at the concrete call
`h('button', {onClick: f})`, which registers f under 'click'. -/
theorem C6_witness :
    ("click", 7) ∈ (h (Tag.str "button")
        (some [("onClick", PropValue.vfun 7)]) []).node.listenersOf ∧
      getAttr (h (Tag.str "button")
        (some [("onClick", PropValue.vfun 7)]) []).node "onClick" = none := by
  have hc := C6_event_listener "button" [("onClick", PropValue.vfun 7)] []
    "onClick" 7 (by decide) (by decide) (by decide)
  have he : jsToLower (jsDrop "onClick" 2) = "click" := by decide
  rw [he] at hc
  exact hc

/-- C10 counterexample: a function-valued property named className (which
is neither ref nor on-prefixed) is not inert — the className branch fires
before any type check, so `h('div', {className: f})` sets the class
attribute to the stringified function, unlike the same call without the
property. -/
theorem C10_counterexample :
    getAttr (h (Tag.str "div")
        (some [("className", PropValue.vfun 0)]) []).node "class"
        = some "function" ∧
      getAttr (h (Tag.str "div") (some []) []).node "class" = none :=
  ⟨by decide, by decide⟩

/-- C10 (amended): a function-valued property whose name is none of ref,
className, and not on-prefixed has no effect: the function is not invoked,
no listener is registered and no attribute is set, so the call equals the
same call without that property. -/
theorem C10_inert_function_prop (t : String)
    (ps₁ ps₂ : List (String × PropValue)) (cs : List Child)
    (k : String) (fid : Nat)
    (h1 : k ≠ "ref") (h2 : jsStartsWith k "on" = false) (h3 : k ≠ "className") :
    h (Tag.str t) (some (ps₁ ++ (k, PropValue.vfun fid) :: ps₂)) cs
      = h (Tag.str t) (some (ps₁ ++ ps₂)) cs := by
  have hfold : foldProps (ps₁ ++ (k, PropValue.vfun fid) :: ps₂) initElemState
      = foldProps (ps₁ ++ ps₂) initElemState := by
    rw [foldProps_append, foldProps_cons, applyProp_fun_inert _ _ _ h1 h2 h3,
      ← foldProps_append]
  simp only [h, Option.getD_some, hfold]

/-- C10 witness: the amended theorem evaluated at the concrete call
`h('div', {title: f})`, whose result equals that of `h('div', {})`. -/
theorem C10_witness :
    h (Tag.str "div") (some [("title", PropValue.vfun 5)]) []
      = h (Tag.str "div") (some []) [] :=
  C10_inert_function_prop "div" [] [] [] "title" 5
    (by decide) (by decide) (by decide)

/-!
Helper lemmas for the router and the nav-link class updates.
-/

theorem mem_classListAdd_iff (cls : List String) (t s : String) :
    s ∈ classListAdd cls t ↔ s ∈ cls ∨ s = t := by
  unfold classListAdd
  split
  · rename_i hin
    constructor
    · exact Or.inl
    · rintro (hs | rfl)
      · exact hs
      · exact hin
  · simp [List.mem_append]

theorem mem_classListAddAll_iff (cls ts : List String) (s : String) :
    s ∈ classListAddAll cls ts ↔ s ∈ cls ∨ s ∈ ts := by
  induction ts generalizing cls with
  | nil => simp [classListAddAll]
  | cons t tl ih =>
    show s ∈ classListAddAll (classListAdd cls t) tl ↔ _
    rw [ih, mem_classListAdd_iff]
    simp [List.mem_cons, or_assoc]

theorem mem_classListRemoveAll_iff (cls ts : List String) (s : String) :
    s ∈ classListRemoveAll cls ts ↔ s ∈ cls ∧ s ∉ ts := by
  induction ts generalizing cls with
  | nil => simp [classListRemoveAll]
  | cons t tl ih =>
    show s ∈ classListRemoveAll (cls.filter (fun x => x ≠ t)) tl ↔ _
    rw [ih]
    simp [List.mem_filter, List.mem_cons, not_or, and_assoc]

theorem active_not_hover : ∀ c ∈ activeClasses, c ∉ hoverClasses := by decide

theorem updateNavLink_match (path : String) (link : NavLink)
    (hm : linkTargetPath link = path) :
    (updateNavLink path link).classes
      = classListRemoveAll (classListAddAll link.classes activeClasses)
          hoverClasses := by
  unfold updateNavLink
  rw [if_pos hm]

theorem updateNavLink_nomatch (path : String) (link : NavLink)
    (hm : linkTargetPath link ≠ path) :
    (updateNavLink path link).classes
      = classListAddAll (classListRemoveAll link.classes activeClasses)
          hoverClasses := by
  unfold updateNavLink
  rw [if_neg hm]

theorem handleRouteChange_some (routes : List (String × (Unit → Node)))
    (notFound : Unit → Node) (hash : String) (cs : List Node)
    (links : List NavLink) (errs : List String) :
    handleRouteChange routes notFound hash ⟨some cs, links, errs⟩
      = match (jsIndex routes (resolvePath hash)).getD (.factory notFound) with
        | .factory f =>
          (updateNavLinks (resolvePath hash)
            ⟨some ([] ++ [f ()]), links, errs⟩, none)
        | .protoMember _ => (⟨some [], links, errs⟩, some "TypeError") := rfl

/-!
Claim theorems for the router.
-/

/-- C3: when the mount container is missing, the route-change handler only
logs the error: no page factory is invoked (the result does not depend on
the route table or the fallback), the container and nav links are left
unchanged, and no exception propagates (the handler is total and returns
normally). -/
theorem C3_missing_root (routes routes' : List (String × (Unit → Node)))
    (notFound notFound' : Unit → Node) (hash : String) (doc : Doc)
    (hroot : doc.appRoot = none) :
    handleRouteChange routes notFound hash doc
        = ({ doc with errors := doc.errors ++ [rootErrorMsg] }, none) ∧
      handleRouteChange routes notFound hash doc
        = handleRouteChange routes' notFound' hash doc := by
  obtain ⟨ar, links, errs⟩ := doc
  have har : ar = none := hroot
  subst har
  exact ⟨rfl, rfl⟩

/-- C3 witness: the theorem evaluated on a document without `#app-root`,
for two different route tables and fallbacks. -/
theorem C3_witness :
    handleRouteChange [] (fun _ => Node.text "nf") "#/x" ⟨none, [], []⟩
        = (⟨none, [], [rootErrorMsg]⟩, none) ∧
      handleRouteChange [] (fun _ => Node.text "nf") "#/x" ⟨none, [], []⟩
        = handleRouteChange [("/y", fun _ => Node.text "y")]
            (fun _ => Node.text "other") "#/x" ⟨none, [], []⟩ :=
  C3_missing_root _ _ _ _ _ _ rfl

/-- C7: every route transition that finds the mount container and completes
without an uncaught exception leaves the container with exactly one child —
the previous children are cleared and exactly one new root node is
appended. -/
theorem C7_single_child (routes : List (String × (Unit → Node)))
    (notFound : Unit → Node) (hash : String) (doc : Doc) (cs : List Node)
    (hroot : doc.appRoot = some cs)
    (hok : (handleRouteChange routes notFound hash doc).2 = none) :
    ∃ nd, (handleRouteChange routes notFound hash doc).1.appRoot
      = some [nd] := by
  obtain ⟨ar, links, errs⟩ := doc
  have har : ar = some cs := hroot
  subst har
  rw [handleRouteChange_some] at hok ⊢
  cases hidx : (jsIndex routes (resolvePath hash)).getD (.factory notFound) with
  | factory f =>
    exact ⟨f (), rfl⟩
  | protoMember m =>
    rw [hidx] at hok
    exact Option.noConfusion hok

/-- C7 witness: the theorem evaluated on a navigation to a known route with
two stale children in the container. -/
theorem C7_witness :
    ∃ nd, (handleRouteChange [("/news", fun _ => Node.text "news")]
        (fun _ => Node.text "nf") "#/news"
        ⟨some [Node.text "old1", Node.text "old2"], [], []⟩).1.appRoot
      = some [nd] :=
  C7_single_child _ _ _ _ _ rfl rfl

/-- C2 (evaluation at the failing input): with the five-entry route table
and any page factories, navigating to the fragment `#toString` does not
mount the NotFoundPage fallback.  The bracket lookup `routes['toString']`
finds the inherited `Object.prototype.toString` member, which is truthy and
is selected over the fallback; invoking it yields no DOM node, so the
handler clears the container and then throws a TypeError instead of
resolving. -/
theorem C2_proto_lookup_bug (home about contact news gallery notFound : Unit → Node)
    (links : List NavLink) (errs : List String) (cs : List Node) :
    handleRouteChange
        [("/", home), ("/about-us", about), ("/contact", contact),
          ("/news", news), ("/gallery", gallery)]
        notFound "#toString" ⟨some cs, links, errs⟩
        = (⟨some [], links, errs⟩, some "TypeError") ∧
      (handleRouteChange
        [("/", home), ("/about-us", about), ("/contact", contact),
          ("/news", news), ("/gallery", gallery)]
        notFound "#toString" ⟨some cs, links, errs⟩).1.appRoot
        ≠ some [notFound ()] := by
  refine ⟨rfl, fun hcontra => ?_⟩
  exact List.noConfusion (Option.some.inj hcontra)

/-- C8 counterexample: navigating twice in succession to `#toString` (with
the five-entry route table and stub pages) leaves the mount container with
no child at all — the prototype-member lookup throws after clearing — so
the second transition does not leave a single child as claimed. -/
theorem C8_counterexample :
    (handleRouteChange
        [("/", fun _ => Node.text "home"), ("/about-us", fun _ => Node.text "about"),
          ("/contact", fun _ => Node.text "contact"), ("/news", fun _ => Node.text "news"),
          ("/gallery", fun _ => Node.text "gallery")]
        (fun _ => Node.text "notfound") "#toString"
        ((handleRouteChange
          [("/", fun _ => Node.text "home"), ("/about-us", fun _ => Node.text "about"),
            ("/contact", fun _ => Node.text "contact"), ("/news", fun _ => Node.text "news"),
            ("/gallery", fun _ => Node.text "gallery")]
          (fun _ => Node.text "notfound") "#toString"
          ⟨some [Node.text "page"], [], []⟩).1)).1.appRoot
      = some [] := rfl

/-- C8 (amended): navigating twice in succession to the same fragment, when
the first transition completes without an uncaught exception, is idempotent
on the container's shape: the second transition also succeeds, the
container's content after it equals the content after the first transition
(the factory being re-invoked), and that content is a single child — never
a duplicate append. -/
theorem C8_idempotent (routes : List (String × (Unit → Node)))
    (notFound : Unit → Node) (hash : String) (doc : Doc) (cs : List Node)
    (hroot : doc.appRoot = some cs)
    (hok : (handleRouteChange routes notFound hash doc).2 = none) :
    (handleRouteChange routes notFound hash
        (handleRouteChange routes notFound hash doc).1).1.appRoot
        = (handleRouteChange routes notFound hash doc).1.appRoot ∧
      (handleRouteChange routes notFound hash
        (handleRouteChange routes notFound hash doc).1).2 = none ∧
      ∃ nd, (handleRouteChange routes notFound hash doc).1.appRoot
        = some [nd] := by
  obtain ⟨ar, links, errs⟩ := doc
  have har : ar = some cs := hroot
  subst har
  rw [handleRouteChange_some] at hok ⊢
  cases hidx : (jsIndex routes (resolvePath hash)).getD (.factory notFound) with
  | factory f =>
    refine ⟨?_, ?_, ⟨f (), rfl⟩⟩
    · show (handleRouteChange routes notFound hash
          ⟨some [f ()], links.map (updateNavLink (resolvePath hash)), errs⟩).1.appRoot
        = some [f ()]
      rw [handleRouteChange_some, hidx]
      rfl
    · show (handleRouteChange routes notFound hash
          ⟨some [f ()], links.map (updateNavLink (resolvePath hash)), errs⟩).2
        = none
      rw [handleRouteChange_some, hidx]
  | protoMember m =>
    rw [hidx] at hok
    exact Option.noConfusion hok

/-- C8 witness: the amended theorem evaluated on two successive navigations
to `#/news`. -/
theorem C8_witness :
    (handleRouteChange [("/news", fun _ => Node.text "news")]
        (fun _ => Node.text "nf") "#/news"
        ((handleRouteChange [("/news", fun _ => Node.text "news")]
          (fun _ => Node.text "nf") "#/news"
          ⟨some [Node.text "old"], [], []⟩).1)).1.appRoot
        = (handleRouteChange [("/news", fun _ => Node.text "news")]
          (fun _ => Node.text "nf") "#/news"
          ⟨some [Node.text "old"], [], []⟩).1.appRoot ∧
      (handleRouteChange [("/news", fun _ => Node.text "news")]
        (fun _ => Node.text "nf") "#/news"
        ((handleRouteChange [("/news", fun _ => Node.text "news")]
          (fun _ => Node.text "nf") "#/news"
          ⟨some [Node.text "old"], [], []⟩).1)).2 = none ∧
      ∃ nd, (handleRouteChange [("/news", fun _ => Node.text "news")]
        (fun _ => Node.text "nf") "#/news"
        ⟨some [Node.text "old"], [], []⟩).1.appRoot = some [nd] :=
  C8_idempotent _ _ _ _ _ rfl rfl

/-- C9: after every successful mount, the nav links are exactly the
previous links restyled against the resolved path; a link whose own target
path (derived from its href fragment, defaulting to the root path) equals
the resolved path carries all active classes and none of the hover classes,
and a non-matching link carries all hover classes and none of the active
classes. -/
theorem C9_nav_links (routes : List (String × (Unit → Node)))
    (notFound : Unit → Node) (hash : String) (doc : Doc) (cs : List Node)
    (hroot : doc.appRoot = some cs)
    (hok : (handleRouteChange routes notFound hash doc).2 = none) :
    (handleRouteChange routes notFound hash doc).1.navLinks
        = doc.navLinks.map (updateNavLink (resolvePath hash)) ∧
      ∀ link : NavLink,
        (linkTargetPath link = resolvePath hash →
          (∀ c ∈ activeClasses, c ∈ (updateNavLink (resolvePath hash) link).classes) ∧
          (∀ c ∈ hoverClasses, c ∉ (updateNavLink (resolvePath hash) link).classes)) ∧
        (linkTargetPath link ≠ resolvePath hash →
          (∀ c ∈ activeClasses, c ∉ (updateNavLink (resolvePath hash) link).classes) ∧
          (∀ c ∈ hoverClasses, c ∈ (updateNavLink (resolvePath hash) link).classes)) := by
  constructor
  · obtain ⟨ar, links, errs⟩ := doc
    have har : ar = some cs := hroot
    subst har
    rw [handleRouteChange_some] at hok ⊢
    cases hidx : (jsIndex routes (resolvePath hash)).getD (.factory notFound) with
    | factory f => rfl
    | protoMember m =>
      rw [hidx] at hok
      exact Option.noConfusion hok
  · intro link
    constructor
    · intro hm
      rw [updateNavLink_match _ _ hm]
      constructor
      · intro c hc
        rw [mem_classListRemoveAll_iff]
        exact ⟨(mem_classListAddAll_iff _ _ _).mpr (Or.inr hc),
          active_not_hover c hc⟩
      · intro c hc hmem
        exact ((mem_classListRemoveAll_iff _ _ _).mp hmem).2 hc
    · intro hm
      rw [updateNavLink_nomatch _ _ hm]
      constructor
      · intro c hc hmem
        rcases (mem_classListAddAll_iff _ _ _).mp hmem with hin | hin
        · exact ((mem_classListRemoveAll_iff _ _ _).mp hin).2 hc
        · exact active_not_hover c hc hin
      · intro c hc
        exact (mem_classListAddAll_iff _ _ _).mpr (Or.inr hc)

/-- C9 witness: the theorem evaluated on a navigation to `#/news` with two
nav links, of which the first matches; it ends up carrying the active class
text-foreground. -/
theorem C9_witness :
    (handleRouteChange [("/news", fun _ => Node.text "news")]
        (fun _ => Node.text "nf") "#/news"
        ⟨some [], [⟨some "#/news", ["hover:border-b-2"]⟩, ⟨some "#/", []⟩],
          []⟩).1.navLinks
        = [(⟨some "#/news", ["hover:border-b-2"]⟩ : NavLink),
            ⟨some "#/", []⟩].map (updateNavLink (resolvePath "#/news")) ∧
      "text-foreground" ∈ (updateNavLink (resolvePath "#/news")
        ⟨some "#/news", ["hover:border-b-2"]⟩).classes := by
  have hc := C9_nav_links [("/news", fun _ => Node.text "news")]
    (fun _ => Node.text "nf") "#/news"
    ⟨some [], [⟨some "#/news", ["hover:border-b-2"]⟩, ⟨some "#/", []⟩], []⟩
    [] rfl rfl
  exact ⟨hc.1, ((hc.2 ⟨some "#/news", ["hover:border-b-2"]⟩).1 (by decide)).1
    "text-foreground" (by decide)⟩

end Spec2Proof
